import Mathlib

/-!
Verification of the Agent Mode instruction router.

Shallow embedding of the routing logic of
`src/UI-main/src/components/AgentMode.tsx`: instruction segmentation
(`splitInstructions`, `splitRelatedActions`), tool-requirement inference,
the three-tier page-to-instruction assignment inside `handleGoalSubmit`,
the per-assignment tool dispatch, the exactly-two-pages special tools, and
the validation / error boundary of `handleGoalSubmit`.

Backend tools (`apiService.*`) are external collaborators; they are
modelled as a record of functions that may fail (`Except Unit`), and every
run records the trace of collaborator calls it makes.  Display-only
formatting of results (the `format*Output` helpers, React nodes) is not
modelled; outputs are kept as the raw strings the component builds.
-/

namespace AgentMode

/-- ASCII part of the JS regex whitespace class `\s` (and of what
`String.prototype.trim` removes). -/
def isJsWs (c : Char) : Bool :=
  c = ' ' || c = '\t' || c = '\n' || c = '\r' || c = '\x0b' || c = '\x0c'

/-- Word characters for the JS regex word-boundary assertion `\b`. -/
def isWordChar (c : Char) : Bool :=
  c.isAlpha || c.isDigit || c = '_'

/-- Models `String.prototype.toLowerCase` (ASCII). -/
def jsToLower (s : String) : String := ⟨s.data.map Char.toLower⟩

/-- Lowercased character list of a string. -/
def lcList (s : String) : List Char := s.data.map Char.toLower

/-- Does the character list start with the given pattern (case sensitive)? -/
def startsWithCS : List Char → List Char → Bool
  | [], _ => true
  | _ :: _, [] => false
  | p :: ps, c :: cs => p = c && startsWithCS ps cs

/-- Does the pattern occur as a contiguous substring of the character list? -/
def hasSubstrCS (pat : List Char) : List Char → Bool
  | [] => startsWithCS pat []
  | c :: cs => startsWithCS pat (c :: cs) || hasSubstrCS pat cs

/-- Models `String.prototype.includes` (case sensitive substring test). -/
def jsIncludes (s sub : String) : Bool := hasSubstrCS sub.data s.data

/-- Models `/pat/i.test s` for a regex `pat` that is a plain lowercase literal. -/
def reTest (pat s : String) : Bool := hasSubstrCS pat.data (lcList s)

/-- After the left literal of `A.*B` has matched, can the right literal be
reached?  The regex `.*` matches any characters except line terminators. -/
def dotStarThen (b : List Char) : List Char → Bool
  | [] => startsWithCS b []
  | c :: cs => startsWithCS b (c :: cs) || (!(c = '\n' || c = '\r') && dotStarThen b cs)

/-- Models `/A.*B/.test` on a character list: an occurrence of `a` followed by an
occurrence of `b`, with no line terminator consumed by the `.*`. -/
def seqCS (a b : List Char) : List Char → Bool
  | [] => startsWithCS a [] && dotStarThen b []
  | c :: cs =>
    (startsWithCS a (c :: cs) && dotStarThen b (List.drop a.length (c :: cs)))
      || seqCS a b cs

/-- Models `/a.*b/i.test s` for lowercase literals `a`, `b`. -/
def reSeq (a b s : String) : Bool := seqCS a.data b.data (lcList s)

/-- At least one whitespace character followed by a word character
(the `\s+\w` part of the regex `to\s+\w+`). -/
def wordAfterWs : List Char → Bool
  | [] => false
  | c :: rest => isWordChar c || (isJsWs c && wordAfterWs rest)

/-- Matches `\s+\w+` anchored at the current position. -/
def wsThenWord : List Char → Bool
  | [] => false
  | c :: rest => isJsWs c && wordAfterWs rest

/-- Models `/to\s+\w+/.test` on an (already lowercased) character list. -/
def toWsWord : List Char → Bool
  | [] => false
  | 't' :: rest =>
    (match rest with
     | 'o' :: rest2 => wsThenWord rest2
     | _ => false) || toWsWord rest
  | _ :: rest => toWsWord rest

/-- Is the character at index `i` (if any) a word character? -/
def wordAt (cs : List Char) (i : Nat) : Bool :=
  match cs.get? i with
  | some c => isWordChar c
  | none => false

/-- Match one alternative of the `splitInstructions` separator regex
`/\band\b|\bthen\b|\n|\r|\r\n|\.|;|,|\|\||\|\s/i` at the current position.
`prev` is the character immediately before this position in the original
string (used by the word-boundary assertions).  Returns the length of the
matched separator.  The `\r\n` alternative is listed after `\r` in the
source regex and is therefore never the one that matches. -/
def matchSepAt (prev : Option Char) (cs : List Char) : Option Nat :=
  let wb : Bool := match prev with
    | none => true
    | some c => !isWordChar c
  if startsWithCS ['a', 'n', 'd'] (cs.map Char.toLower) && wb && !wordAt cs 3 then some 3
  else if startsWithCS ['t', 'h', 'e', 'n'] (cs.map Char.toLower) && wb && !wordAt cs 4 then some 4
  else
    match cs with
    | '\n' :: _ => some 1
    | '\r' :: _ => some 1
    | '.' :: _ => some 1
    | ';' :: _ => some 1
    | ',' :: _ => some 1
    | '|' :: '|' :: _ => some 2
    | '|' :: c :: _ => if isJsWs c then some 2 else none
    | _ => none

/-- Match one alternative of the `splitRelatedActions` separator regex
`/\band\b|\bthen\b|;/i` at the current position. -/
def matchRelSepAt (prev : Option Char) (cs : List Char) : Option Nat :=
  let wb : Bool := match prev with
    | none => true
    | some c => !isWordChar c
  if startsWithCS ['a', 'n', 'd'] (cs.map Char.toLower) && wb && !wordAt cs 3 then some 3
  else if startsWithCS ['t', 'h', 'e', 'n'] (cs.map Char.toLower) && wb && !wordAt cs 4 then some 4
  else
    match cs with
    | ';' :: _ => some 1
    | _ => none

/-- Models `String.prototype.split` with a separator regex given by its
position-matcher `msep`.  `skip` counts separator characters still to be
consumed, `prev` is the previous character of the original string, `acc`
the current fragment (reversed). -/
def splitByAux (msep : Option Char → List Char → Option Nat) :
    Nat → Option Char → List Char → List Char → List (List Char)
  | _, _, acc, [] => [acc.reverse]
  | Nat.succ k, _, acc, c :: rest => splitByAux msep k (some c) acc rest
  | 0, prev, acc, c :: rest =>
    match msep prev (c :: rest) with
    | some n => acc.reverse :: splitByAux msep (n - 1) (some c) [] rest
    | none => splitByAux msep 0 (some c) (c :: acc) rest

/-- Models `goal.split(/\band\b|\bthen\b|\n|\r|\r\n|\.|;|,|\|\||\|\s/i)`. -/
def splitRaw (s : String) : List String :=
  (splitByAux matchSepAt 0 none [] s.data).map String.mk

/-- Models `instruction.split(/\band\b|\bthen\b|;/i)`. -/
def splitRelRaw (s : String) : List String :=
  (splitByAux matchRelSepAt 0 none [] s.data).map String.mk

/-- Models `String.prototype.trim` on a character list. -/
def jsTrimList (cs : List Char) : List Char :=
  ((cs.dropWhile isJsWs).reverse.dropWhile isJsWs).reverse

/-- Models `String.prototype.trim`. -/
def jsTrim (s : String) : String := ⟨jsTrimList s.data⟩

/-- The helper `splitInstructions` of `AgentMode.tsx`: split the user goal
on the separators, trim every fragment, keep fragments longer than 3
characters; a single surviving instruction is returned unsplit, and with
several instructions the refinement loop pushes each instruction
unchanged in both of its branches. -/
def splitInstructions (input : String) : List String :=
  let instructions := ((splitRaw input).map jsTrim).filter
    (fun instr => decide (instr.length > 0) && decide (instr.length > 3))
  if instructions.length = 1 then
    instructions
  else
    instructions.foldl
      (fun refined instruction =>
        if reTest "page" instruction || reTest "image" instruction ||
            reTest "code" instruction || reTest "video" instruction ||
            reTest "text" instruction then
          refined ++ [instruction]
        else
          refined ++ [instruction])
      []

/-- The helper `splitRelatedActions` of `AgentMode.tsx`. -/
def splitRelatedActions (instruction : String) : List String :=
  ((splitRelRaw instruction).map jsTrim).filter (fun instr => decide (instr.length > 0))

/-- The tool-requirement inference of `handleGoalSubmit`: ordered
keyword/pattern tests on the lowercased instruction, each appending one
tool name; the default is `ai_powered_search`. -/
def inferTools (instruction : String) : List String :=
  let l := jsToLower instruction
  let tools : List String := []
  let tools := if reTest "video" l || reSeq "summarize" "video" l ||
      reTest "transcribe" l || reSeq "video" "summarize" l then
    tools ++ ["video_summarizer"] else tools
  let tools := if reTest "image" l || reTest "chart" l || reTest "diagram" l ||
      reTest "visual" l || reSeq "image" "summarize" l || reSeq "summarize" "image" l ||
      reSeq "analyze" "image" l || reSeq "image" "analyze" l then
    tools ++ ["image_insights"] else tools
  let tools := if reSeq "convert" "language" l || reSeq "language" "convert" l ||
      reTest "debug" l || reTest "refactor" l || reTest "fix" l || reTest "bug" l ||
      reTest "error" l || reTest "optimize" l || reTest "performance" l ||
      reTest "documentation" l || reTest "docs" l || reTest "comment" l ||
      reTest "dead code" l || reTest "unused" l || reTest "logging" l ||
      reTest "log" l || reSeq "code" "convert" l || reSeq "convert" "code" l then
    tools ++ ["code_assistant"] else tools
  let tools := if reTest "text" l || reSeq "summarize" "text" l ||
      reSeq "text" "summarize" l || reSeq "summarize" "page" l ||
      reSeq "page" "summarize" l || reTest "summarize" l then
    tools ++ ["ai_powered_search"] else tools
  let tools := if reTest "impact" l || reTest "change" l || reTest "difference" l ||
      reTest "diff" l then
    tools ++ ["impact_analyzer"] else tools
  let tools := if reTest "test" l || reTest "qa" l || reTest "test case" l ||
      reTest "unit test" l then
    tools ++ ["test_support"] else tools
  if tools.length = 0 then ["ai_powered_search"] else tools

/-- Models `(pageTypes.find(p => p.title === page)?.content_type) || 'text'`:
content-type lookup with the JS falsy default to `"text"`. -/
def contentTypeOf (pageTypes : List (String × String)) (page : String) : String :=
  match pageTypes.find? (fun p => p.1 = page) with
  | some p => if p.2 = "" then "text" else p.2
  | none => "text"

/-- The content-type priority pick for the best tool (tiers 1 and 2):
prefer the tool matching the page's content type when it was inferred,
else the first inferred tool, else `ai_powered_search`. -/
def bestToolFor (pageType : String) (tools : List String) : String :=
  if pageType = "video" && tools.contains "video_summarizer" then "video_summarizer"
  else if pageType = "image" && tools.contains "image_insights" then "image_insights"
  else if pageType = "code" && tools.contains "code_assistant" then "code_assistant"
  else if pageType = "text" && tools.contains "ai_powered_search" then "ai_powered_search"
  else if tools.length > 0 then tools.headD "ai_powered_search"
  else "ai_powered_search"

/-- Tier-2 keyword override `/image|chart|diagram|visual/`. -/
def imageOverride (l : String) : Bool :=
  reTest "image" l || reTest "chart" l || reTest "diagram" l || reTest "visual" l

/-- Tier-2 keyword override
`/convert|debug|refactor|fix|bug|error|optimize|performance|documentation|docs|comment|dead code|unused|logging|log|code/`. -/
def codeOverride (l : String) : Bool :=
  reTest "convert" l || reTest "debug" l || reTest "refactor" l || reTest "fix" l ||
  reTest "bug" l || reTest "error" l || reTest "optimize" l || reTest "performance" l ||
  reTest "documentation" l || reTest "docs" l || reTest "comment" l ||
  reTest "dead code" l || reTest "unused" l || reTest "logging" l || reTest "log" l ||
  reTest "code" l

/-- Tier-2 keyword override `/video|summarize.*video|transcribe/`. -/
def videoOverride (l : String) : Bool :=
  reTest "video" l || reSeq "summarize" "video" l || reTest "transcribe" l

/-- Models `lowerPageName.replace(/\s+/g, r)`: replace every whitespace run by
the single character `r`.  The flag records whether the previous
character was part of a run. -/
def replaceWsRuns (r : Char) : Bool → List Char → List Char
  | _, [] => []
  | inRun, c :: cs =>
    if isJsWs c then
      if inRun then replaceWsRuns r true cs
      else r :: replaceWsRuns r true cs
    else c :: replaceWsRuns r false cs

/-- The tier-1 explicit-mention test: the lowercased instruction contains
the lowercased page title, or the title with whitespace runs replaced by
underscore or hyphen. -/
def mentionsPage (instruction page : String) : Bool :=
  let lowerInstruction := jsToLower instruction
  let lowerPageName := jsToLower page
  jsIncludes lowerInstruction lowerPageName ||
  jsIncludes lowerInstruction ⟨replaceWsRuns '_' false lowerPageName.data⟩ ||
  jsIncludes lowerInstruction ⟨replaceWsRuns '-' false lowerPageName.data⟩

/-- Which of the four matching tiers of `handleGoalSubmit` produced an
assignment: explicit page mention, content-type pass, first-available
fallback, or the synthetic absolute fallback. -/
inductive Tier
  | explicitMention
  | contentType
  | fallback
  | absolute
deriving DecidableEq, Repr

/-- One routed unit of work: the `{ page, instruction, tool }` records
pushed onto `pageInstructions`. -/
structure PageInstruction where
  page : String
  instruction : String
  tool : String
deriving DecidableEq, Repr

/-- Tier 1: the first instruction that explicitly mentions the page name,
with the content-type priority pick for its tool.  This pass does not
consult the used-instruction set. -/
def findExplicitMatch (page pageType : String) :
    List (String × List String) → Option (String × String)
  | [] => none
  | (instruction, tools) :: rest =>
    if mentionsPage instruction page then
      some (instruction, bestToolFor pageType tools)
    else findExplicitMatch page pageType rest

/-- Tiers 2 and 3 both scan for the first instruction that is not in the
used-instruction set. -/
def findFirstUnused (used : List String) :
    List (String × List String) → Option (String × List String)
  | [] => none
  | (instruction, tools) :: rest =>
    if instruction ∈ used then findFirstUnused used rest
    else some (instruction, tools)

/-- The tier-2 tool choice: content-type priority pick, then the keyword
override chain. -/
def contentTierTool (pageType instruction : String) (tools : List String) : String :=
  let lowerInstruction := jsToLower instruction
  let bestTool := bestToolFor pageType tools
  if pageType = "image" && imageOverride lowerInstruction then "image_insights"
  else if pageType = "code" && codeOverride lowerInstruction then "code_assistant"
  else if pageType = "video" && videoOverride lowerInstruction then "video_summarizer"
  else bestTool

/-- Models `instructions[0] || 'Analyze this content'` of the absolute fallback. -/
def defaultInstruction : List String → String
  | [] => "Analyze this content"
  | i :: _ => if i = "" then "Analyze this content" else i

/-- One iteration of the page loop of `handleGoalSubmit`: try the four
tiers in order for `page` and return the produced assignment (annotated
with the tier that resolved it) together with the updated
used-instruction set. -/
def assignPage (instructionTools : List (String × List String))
    (instructions : List String) (used : List String) (page pageType : String) :
    (PageInstruction × Tier) × List String :=
  match findExplicitMatch page pageType instructionTools with
  | some (instruction, tool) =>
    ((⟨page, instruction, tool⟩, Tier.explicitMention), instruction :: used)
  | none =>
    match findFirstUnused used instructionTools with
    | some (instruction, tools) =>
      ((⟨page, instruction, contentTierTool pageType instruction tools⟩, Tier.contentType),
        instruction :: used)
    | none =>
      match findFirstUnused used instructionTools with
      | some (instruction, tools) =>
        ((⟨page, instruction, tools.headD "ai_powered_search"⟩, Tier.fallback),
          instruction :: used)
      | none =>
        ((⟨page, defaultInstruction instructions, "ai_powered_search"⟩, Tier.absolute), used)

/-- The page loop of `handleGoalSubmit`, threading the used-instruction
set through the pages in input order. -/
def assignLoop (instructionTools : List (String × List String))
    (instructions : List String) (pageTypes : List (String × String))
    (used : List String) : List String → List (PageInstruction × Tier)
  | [] => []
  | page :: rest =>
    let pageType := contentTypeOf pageTypes page
    let r := assignPage instructionTools instructions used page pageType
    r.1 :: assignLoop instructionTools instructions pageTypes r.2 rest

/-- The complete assignment pipeline of `handleGoalSubmit`: segment the
goal, infer tools per instruction, then run the page loop from an empty
used-instruction set.  Each assignment is annotated with the tier that
resolved it; dropping the annotation gives the `pageInstructions` list of
the source. -/
def routeAssignmentsAnnotated (goal : String) (selectedPages : List String)
    (pageTypes : List (String × String)) : List (PageInstruction × Tier) :=
  let instructions := splitInstructions goal
  let instructionTools := instructions.map (fun i => (i, inferTools i))
  assignLoop instructionTools instructions pageTypes [] selectedPages

/-- Response of `apiService.codeAssistant`. -/
structure CodeResp where
  originalCode : Option String
  modifiedCode : Option String
  convertedCode : Option String
deriving DecidableEq, Repr

/-- Response of `apiService.videoSummarizer`. -/
structure VideoResp where
  summary : String
  quotes : List String
  timestamps : List String
  qa : String
deriving DecidableEq, Repr

/-- One collaborator invocation, with the arguments the component passes. -/
inductive ApiCall
  | codeAssistant (spaceKey pageTitle instruction : String)
  | search (spaceKey : String) (pageTitles : List String) (query : String)
  | getImages (spaceKey pageTitle : String)
  | imageSummary (spaceKey pageTitle imageUrl : String)
  | videoSummarizer (spaceKey pageTitle : String)
  | impactAnalyzer (spaceKey oldPageTitle newPageTitle question : String)
  | testSupport (spaceKey codePageTitle testInputPageTitle question : String)
deriving DecidableEq, Repr

/-- The external collaborators (`apiService`): each asynchronous tool call
either resolves with its response or rejects.  Only the response parts
the routing flow reads are modelled. -/
structure ApiService where
  codeAssistant : String → String → String → Except Unit CodeResp
  search : String → List String → String → Except Unit String
  getImages : String → String → Except Unit (List String)
  imageSummary : String → String → String → Except Unit String
  videoSummarizer : String → String → Except Unit VideoResp
  impactAnalyzer : String → String → String → String → Except Unit Unit
  testSupport : String → String → String → String → Except Unit String

/-- JS `a || b` for an optional string, where the empty string is falsy. -/
def jsOr (a : Option String) (b : String) : String :=
  match a with
  | some s => if s = "" then b else s
  | none => b

/-- The `actionPromptMap` of the code-assistant branch, keyed by the
action-classification regex chain. -/
def actionPrompt (detectedCode action : String) : String :=
  if reTest "optimize" action || reTest "performance" action then
    "Optimize the following code for performance without changing its functionality, return only the updated code:\n\n" ++ detectedCode
  else if reTest "documentation" action || reTest "docs" action || reTest "comment" action then
    "Generate inline documentation and function-level comments for the following code, return only the updated code by commenting the each line of the code.:\n\n" ++ detectedCode
  else if reTest "refactor" action || reTest "structure" action then
    "Refactor the following code to improve structure, readability, and modularity, return only the updated code:\n\n" ++ detectedCode
  else if reTest "dead code" action || reTest "unused" action then
    "Analyze the following code for any unsued code or dead code, return only the updated code by removing the dead code:\n\n" ++ detectedCode
  else if reTest "logging" action || reTest "log" action then
    "Add appropriate logging statements to the following code for better traceability and debugging. Return only the updated code:\n\n" ++ detectedCode
  else if reTest "summarize" action || reTest "summary" action then
    "Summarize the following code in clear and concise language:\n\n" ++ detectedCode
  else action

/-- Matches `/optimize|refactor|dead code|docs|logging|summarize/i`. -/
def isAiAction (action : String) : Bool :=
  reTest "optimize" action || reTest "refactor" action || reTest "dead code" action ||
  reTest "docs" action || reTest "logging" action || reTest "summarize" action

/-- Matches `/convert|language|to\s+\w+/i`. -/
def isConversion (action : String) : Bool :=
  reTest "convert" action || reTest "language" action || toWsWord (lcList action)

/-- The mutable outputs of the code-assistant action loop. -/
structure CodeLoopState where
  lastOutput : String
  aiActionOutput : String
  conversionOutput : String
  modificationOutput : String
deriving DecidableEq, Repr

/-- The `for (const action of relatedActions)` loop of the code-assistant
branch: build the prompt, call the collaborator, classify the output into
one of the three buckets.  Returns the final state (or the failure) and
the trace of collaborator calls made. -/
def codeActionsLoop (api : ApiService) (spaceKey pageTitle detectedCode : String) :
    List String → CodeLoopState → Except Unit CodeLoopState × List ApiCall
  | [], st => (Except.ok st, [])
  | action :: rest, st =>
    let prompt := actionPrompt detectedCode action
    match api.codeAssistant spaceKey pageTitle prompt with
    | Except.error _ => (Except.error (), [ApiCall.codeAssistant spaceKey pageTitle prompt])
    | Except.ok result =>
      let output := jsOr result.modifiedCode (jsOr result.convertedCode
        (jsOr result.originalCode "AI action completed successfully."))
      let st' :=
        if isAiAction action then
          { st with aiActionOutput := output, lastOutput := output }
        else if isConversion action then
          { st with conversionOutput := output, lastOutput := output }
        else
          { st with modificationOutput := output, lastOutput := output }
      let r := codeActionsLoop api spaceKey pageTitle detectedCode rest st'
      (r.1, ApiCall.codeAssistant spaceKey pageTitle prompt :: r.2)

/-- Collect a list of collaborator results, failing if any rejected
(the `Promise.all` await). -/
def collectExcept {α : Type} : List (Except Unit α) → Except Unit (List α)
  | [] => Except.ok []
  | Except.error _ :: _ => Except.error ()
  | Except.ok a :: rest =>
    match collectExcept rest with
    | Except.error _ => Except.error ()
    | Except.ok as => Except.ok (a :: as)

/-- The body of the per-assignment dispatch loop of `handleGoalSubmit`:
branch on the assignment's tool, call the corresponding collaborators and
build the `outputs` list.  Assignments whose tool is none of the four
dispatchable tools fall through to the final `else`, which performs an
AI-powered-search call.  The result is paired with the trace of
collaborator calls that were started (a rejected call is still in the
trace). -/
def dispatchAssignment (api : ApiService) (selectedSpace : String)
    (a : PageInstruction) : Except Unit (List String) × List ApiCall :=
  if a.tool = "code_assistant" then
    let relatedActions := splitRelatedActions a.instruction
    match api.codeAssistant selectedSpace a.page "" with
    | Except.error _ => (Except.error (), [ApiCall.codeAssistant selectedSpace a.page ""])
    | Except.ok initialResult =>
      let detectedCode := jsOr initialResult.originalCode ""
      let r := codeActionsLoop api selectedSpace a.page detectedCode relatedActions ⟨"", "", "", ""⟩
      match r.1 with
      | Except.error _ => (Except.error (), ApiCall.codeAssistant selectedSpace a.page "" :: r.2)
      | Except.ok st =>
        let outputs :=
          (if st.aiActionOutput ≠ "" then ["AI Action Output:\n" ++ st.aiActionOutput] else []) ++
          (if st.conversionOutput ≠ "" then
            ["Target Language Conversion Output:\n" ++ st.conversionOutput] else []) ++
          (if st.modificationOutput ≠ "" then
            ["Modification Output:\n" ++ st.modificationOutput] else [])
        let outputs :=
          if st.aiActionOutput = "" && st.conversionOutput = "" &&
              st.modificationOutput = "" && st.lastOutput ≠ "" then
            outputs ++ ["Processed Code:\n" ++ st.lastOutput]
          else outputs
        (Except.ok outputs, ApiCall.codeAssistant selectedSpace a.page "" :: r.2)
  else if a.tool = "image_insights" then
    match api.getImages selectedSpace a.page with
    | Except.error _ => (Except.error (), [ApiCall.getImages selectedSpace a.page])
    | Except.ok images =>
      if images.length > 0 then
        let calls := images.map (fun u => ApiCall.imageSummary selectedSpace a.page u)
        match collectExcept (images.map (fun u => api.imageSummary selectedSpace a.page u)) with
        | Except.error _ => (Except.error (), ApiCall.getImages selectedSpace a.page :: calls)
        | Except.ok summaries =>
          let output := String.intercalate "\n\n"
            (summaries.enum.map (fun p => "Image " ++ toString (p.1 + 1) ++ ": " ++ p.2))
          (Except.ok [output], ApiCall.getImages selectedSpace a.page :: calls)
      else
        (Except.ok ["No images found on this page."], [ApiCall.getImages selectedSpace a.page])
  else if a.tool = "ai_powered_search" then
    match api.search selectedSpace [a.page] a.instruction with
    | Except.error _ => (Except.error (), [ApiCall.search selectedSpace [a.page] a.instruction])
    | Except.ok response =>
      (Except.ok [response], [ApiCall.search selectedSpace [a.page] a.instruction])
  else if a.tool = "video_summarizer" then
    match api.videoSummarizer selectedSpace a.page with
    | Except.error _ => (Except.error (), [ApiCall.videoSummarizer selectedSpace a.page])
    | Except.ok res =>
      let summaryText := if res.summary = "" then "No summary available." else res.summary
      let quotesText :=
        if res.quotes.length > 0 then
          "\n\nKey Quotes:\n" ++ String.intercalate "\n"
            (res.quotes.map (fun q => "- \"" ++ q ++ "\""))
        else ""
      let timestampsText :=
        if res.timestamps.length > 0 then
          "\n\nTimestamps:\n" ++ String.intercalate "\n" (res.timestamps.map (fun ts => "- " ++ ts))
        else ""
      (Except.ok [summaryText ++ quotesText ++ timestampsText],
        [ApiCall.videoSummarizer selectedSpace a.page])
  else
    match api.search selectedSpace [a.page] a.instruction with
    | Except.error _ => (Except.error (), [ApiCall.search selectedSpace [a.page] a.instruction])
    | Except.ok response =>
      (Except.ok [response], [ApiCall.search selectedSpace [a.page] a.instruction])

/-- One per-page result entry: `{ instruction, tool, outputs }`
(the display-only `formattedOutput` is not modelled). -/
def ResultEntry := String × String × List String
deriving instance DecidableEq, Repr for ResultEntry

/-- Models `pageResults[page].push(entry)` on the insertion-ordered record. -/
def pushResult (pageResults : List (String × List ResultEntry)) (page : String)
    (e : ResultEntry) : List (String × List ResultEntry) :=
  match pageResults with
  | [] => [(page, [e])]
  | (p, es) :: rest =>
    if p = page then (p, es ++ [e]) :: rest else (p, es) :: pushResult rest page e

/-- The sequential dispatch loop over `pageInstructions`: each assignment
is dispatched in turn, a rejection aborts the loop (propagating to the
outer catch), successes accumulate into `pageResults`. -/
def dispatchAll (api : ApiService) (selectedSpace : String)
    (pageResults : List (String × List ResultEntry)) :
    List PageInstruction → Except Unit (List (String × List ResultEntry)) × List ApiCall
  | [] => (Except.ok pageResults, [])
  | a :: rest =>
    let r := dispatchAssignment api selectedSpace a
    match r.1 with
    | Except.error _ => (Except.error (), r.2)
    | Except.ok outputs =>
      let r' := dispatchAll api selectedSpace
        (pushResult pageResults a.page (a.instruction, a.tool, outputs)) rest
      (r'.1, r.2 ++ r'.2)

/-- Models `instructions.some(i => /impact|compare|difference|diff/i.test(i))`. -/
def hasImpactInstruction (instructions : List String) : Bool :=
  instructions.any (fun instruction =>
    reTest "impact" instruction || reTest "compare" instruction ||
    reTest "difference" instruction || reTest "diff" instruction)

/-- Models `instructions.some(i => /test|qa|test case|unit test/i.test(i))`. -/
def hasTestInstruction (instructions : List String) : Bool :=
  instructions.any (fun instruction =>
    reTest "test" instruction || reTest "qa" instruction ||
    reTest "test case" instruction || reTest "unit test" instruction)

/-- The exactly-two-pages special block of `handleGoalSubmit`: when two
pages are selected, an instruction matching the impact keywords triggers
a standalone impact-analyzer call with the pages as (old, new) in
selection order, and an instruction matching the test keywords triggers a
standalone test-support call.  Returns which of the two standalone result
blocks exist, and the call trace. -/
def runSpecials (api : ApiService) (selectedSpace goal : String)
    (instructions : List String) (selectedPages : List String) :
    Except Unit (Bool × Bool) × List ApiCall :=
  match selectedPages with
  | [oldPage, newPage] =>
    if hasImpactInstruction instructions then
      match api.impactAnalyzer selectedSpace oldPage newPage goal with
      | Except.error _ =>
        (Except.error (), [ApiCall.impactAnalyzer selectedSpace oldPage newPage goal])
      | Except.ok _ =>
        if hasTestInstruction instructions then
          match api.testSupport selectedSpace oldPage newPage goal with
          | Except.error _ =>
            (Except.error (), [ApiCall.impactAnalyzer selectedSpace oldPage newPage goal,
              ApiCall.testSupport selectedSpace oldPage newPage goal])
          | Except.ok _ =>
            (Except.ok (true, true), [ApiCall.impactAnalyzer selectedSpace oldPage newPage goal,
              ApiCall.testSupport selectedSpace oldPage newPage goal])
        else
          (Except.ok (true, false), [ApiCall.impactAnalyzer selectedSpace oldPage newPage goal])
    else if hasTestInstruction instructions then
      match api.testSupport selectedSpace oldPage newPage goal with
      | Except.error _ =>
        (Except.error (), [ApiCall.testSupport selectedSpace oldPage newPage goal])
      | Except.ok _ =>
        (Except.ok (false, true), [ApiCall.testSupport selectedSpace oldPage newPage goal])
    else (Except.ok (false, false), [])
  | _ => (Except.ok (false, false), [])

/-- The `try` block of `handleGoalSubmit`: segmentation, tool inference,
assignment, the dispatch loop, then the two-page special tools, then the
output tabs.  On success it returns the list of output tab ids; a
rejected collaborator call propagates out as the error. -/
def runTry (api : ApiService) (goal selectedSpace : String)
    (selectedPages : List String) (pageTypes : List (String × String)) :
    Except Unit (List String) × List ApiCall :=
  let instructions := splitInstructions goal
  let instructionTools := instructions.map (fun i => (i, inferTools i))
  let pageInstructions :=
    (assignLoop instructionTools instructions pageTypes [] selectedPages).map Prod.fst
  let d := dispatchAll api selectedSpace [] pageInstructions
  match d.1 with
  | Except.error _ => (Except.error (), d.2)
  | Except.ok pageResults =>
    let s := runSpecials api selectedSpace goal instructions selectedPages
    match s.1 with
    | Except.error _ => (Except.error (), d.2 ++ s.2)
    | Except.ok specials =>
      let pageTabs :=
        if pageResults.length > 0 || specials.1 || specials.2 then ["per-page-results"] else []
      (Except.ok (pageTabs ++ ["reasoning", "selected-pages"]), d.2 ++ s.2)

/-- The component state `handleGoalSubmit` leaves behind, restricted to
what the routing contract observes: the error message, the output tab
ids, and the trace of collaborator calls made during the run. -/
structure SubmitResult where
  error : String
  outputTabs : List String
  calls : List ApiCall
deriving DecidableEq, Repr

/-- Models `handleGoalSubmit`: validation (empty goal after trimming, no space,
or no pages selected) reports an error synchronously with no collaborator
call and leaves the output tabs untouched; otherwise the tabs are reset
and the `try` block runs, with any rejection caught at this outermost
boundary and surfaced as the single generic orchestration error, leaving
the output tabs in their reset (empty) state. -/
def handleGoalSubmit (api : ApiService) (goal selectedSpace : String)
    (selectedPages : List String) (pageTypes : List (String × String))
    (outputTabs : List String) : SubmitResult :=
  if jsTrim goal = "" ∨ selectedSpace = "" ∨ selectedPages = [] then
    { error := "Please enter a goal, select a space, and at least one page.",
      outputTabs := outputTabs, calls := [] }
  else
    match runTry api goal selectedSpace selectedPages pageTypes with
    | (Except.error _, trace) =>
      { error := "An error occurred during orchestration.", outputTabs := [], calls := trace }
    | (Except.ok tabs, trace) =>
      { error := "", outputTabs := tabs, calls := trace }

/-- Is there a match of the instruction-separator regex anywhere in the
character list, scanning with the true previous character (for the
word-boundary assertions)? -/
def hasSepFrom (prev : Option Char) : List Char → Bool
  | [] => false
  | c :: rest => (matchSepAt prev (c :: rest)).isSome || hasSepFrom (some c) rest

/-- The goal contains none of the separator tokens of
`splitInstructions`. -/
def noSeparatorTokens (s : String) : Bool := !(hasSepFrom none s.data)

/-- Did the `try` block resolve (as opposed to reject)? -/
def isOkB {α : Type} : Except Unit α → Bool
  | Except.ok _ => true
  | Except.error _ => false

/-- Calls to the two standalone two-page collaborators. -/
def isSpecialToolCall : ApiCall → Bool
  | ApiCall.impactAnalyzer _ _ _ _ => true
  | ApiCall.testSupport _ _ _ _ => true
  | _ => false

/-- A collaborator environment in which every tool call resolves, with
fixed responses. -/
def okApi : ApiService where
  codeAssistant := fun _ _ _ => Except.ok ⟨some "orig", some "mod", some "conv"⟩
  search := fun _ _ _ => Except.ok "search result"
  getImages := fun _ _ => Except.ok []
  imageSummary := fun _ _ _ => Except.ok "img"
  videoSummarizer := fun _ _ => Except.ok ⟨"sum", [], [], "qa"⟩
  impactAnalyzer := fun _ _ _ _ => Except.ok ()
  testSupport := fun _ _ _ _ => Except.ok "strategy"

/-- A collaborator environment in which the search tool rejects. -/
def failingApi : ApiService :=
  { okApi with search := fun _ _ _ => Except.error () }

/-! ## Basic lemmas about segmentation -/

theorem foldl_push {α : Type} :
    ∀ (l acc : List α), List.foldl (fun r i => r ++ [i]) acc l = acc ++ l := by
  intro l
  induction l with
  | nil => intro acc; simp
  | cons a rest ih => intro acc; simp [ih]

/-- The refinement loop of `splitInstructions` pushes every instruction
unchanged, so segmentation is the trim-and-filter of the raw split. -/
theorem splitInstructions_eq (input : String) :
    splitInstructions input = ((splitRaw input).map jsTrim).filter
      (fun instr => decide (instr.length > 0) && decide (instr.length > 3)) := by
  unfold splitInstructions
  simp only [ite_self]
  split
  · rfl
  · exact foldl_push _ _

theorem assignPage_page (its : List (String × List String)) (instrs used : List String)
    (page pageType : String) :
    ((assignPage its instrs used page pageType).1.1).page = page := by
  unfold assignPage
  rcases h : findExplicitMatch page pageType its with _ | ⟨i, t⟩
  · rcases h2 : findFirstUnused used its with _ | ⟨i2, ts2⟩
    · simp [h, h2]
    · simp [h, h2]
  · simp [h]

/-- C5: the page loop produces exactly one assignment per input page, in
page input order, for every instruction list and used-instruction set. -/
theorem assignLoop_one_per_page_in_order (instructionTools : List (String × List String))
    (instructions : List String) (pageTypes : List (String × String))
    (used pages : List String) :
    (assignLoop instructionTools instructions pageTypes used pages).map (fun a => a.1.page)
      = pages := by
  induction pages generalizing used with
  | nil => rfl
  | cons p ps ih => simp [assignLoop, assignPage_page, ih]

/-! ## The used-instruction set -/

theorem findFirstUnused_some_not_used (used : List String)
    (its : List (String × List String)) (i : String) (ts : List String)
    (h : findFirstUnused used its = some (i, ts)) : i ∉ used := by
  induction its with
  | nil => simp [findFirstUnused] at h
  | cons p rest ih =>
    rcases p with ⟨pi, pts⟩
    by_cases hm : pi ∈ used
    · rw [findFirstUnused, if_pos hm] at h
      exact ih h
    · rw [findFirstUnused, if_neg hm] at h
      simp only [Option.some.injEq, Prod.mk.injEq] at h
      obtain ⟨rfl, rfl⟩ := h
      exact hm

theorem findFirstUnused_none_iff (used : List String) (its : List (String × List String)) :
    findFirstUnused used its = none ↔ ∀ p ∈ its, p.1 ∈ used := by
  induction its with
  | nil => simp [findFirstUnused]
  | cons p rest ih =>
    rcases p with ⟨pi, pts⟩
    by_cases hm : pi ∈ used
    · simp [findFirstUnused, hm, ih]
    · simp [findFirstUnused, hm]

theorem findFirstUnused_none_mono (used used' : List String)
    (hsub : ∀ x ∈ used, x ∈ used') (its : List (String × List String))
    (h : findFirstUnused used its = none) : findFirstUnused used' its = none := by
  rw [findFirstUnused_none_iff] at h ⊢
  exact fun p hp => hsub _ (h p hp)

/-- The used-instruction set only grows across one page step. -/
theorem assignPage_used_mono (its : List (String × List String)) (instrs used : List String)
    (page pageType : String) :
    ∀ x ∈ used, x ∈ (assignPage its instrs used page pageType).2 := by
  intro x hx
  unfold assignPage
  rcases h : findExplicitMatch page pageType its with _ | ⟨i, t⟩
  · rcases h2 : findFirstUnused used its with _ | ⟨i2, ts2⟩
    · simp [h, h2, hx]
    · simp [h, h2, hx]
  · simp [h, hx]

/-- A tier-2 (content-type) match selects an instruction that is not in
the used-instruction set. -/
theorem assignPage_tier2_not_used (its : List (String × List String))
    (instrs used : List String) (page pageType : String)
    (h : (assignPage its instrs used page pageType).1.2 = Tier.contentType) :
    (assignPage its instrs used page pageType).1.1.instruction ∉ used := by
  unfold assignPage at h ⊢
  rcases he : findExplicitMatch page pageType its with _ | ⟨i, t⟩
  · rcases h2 : findFirstUnused used its with _ | ⟨i2, ts2⟩
    · simp [he, h2] at h
    · simp only [he, h2]
      exact findFirstUnused_some_not_used used its i2 ts2 h2
  · simp [he] at h

/-- Every tier but the absolute fallback marks its instruction used; the
absolute fallback fires only with the instruction list exhausted and
leaves the set unchanged. -/
theorem assignPage_cases (its : List (String × List String)) (instrs used : List String)
    (page pageType : String) :
    ((assignPage its instrs used page pageType).1.2 = Tier.absolute ∧
      (assignPage its instrs used page pageType).2 = used ∧
      findFirstUnused used its = none) ∨
    ((assignPage its instrs used page pageType).2 =
      (assignPage its instrs used page pageType).1.1.instruction :: used) := by
  unfold assignPage
  rcases he : findExplicitMatch page pageType its with _ | ⟨i, t⟩
  · rcases h2 : findFirstUnused used its with _ | ⟨i2, ts2⟩
    · left; simp [he, h2]
    · right; simp [he, h2]
  · right; simp [he]

/-- With the instruction list exhausted at the used set, no later page can
resolve through tier 2. -/
theorem assignPage_no_tier2_of_none (its : List (String × List String))
    (instrs used : List String) (page pageType : String)
    (hnone : findFirstUnused used its = none) :
    (assignPage its instrs used page pageType).1.2 ≠ Tier.contentType := by
  unfold assignPage
  rcases he : findExplicitMatch page pageType its with _ | ⟨i, t⟩
  · simp [he, hnone]
  · simp [he]

theorem assignLoop_no_tier2_of_exhausted (its : List (String × List String))
    (instrs : List String) (pts : List (String × String)) :
    ∀ (pages used : List String), findFirstUnused used its = none →
      ∀ b ∈ assignLoop its instrs pts used pages, b.2 ≠ Tier.contentType := by
  intro pages
  induction pages with
  | nil => intro used _ b hb; simp [assignLoop] at hb
  | cons p ps ih =>
    intro used hnone b hb
    simp only [assignLoop] at hb
    rcases List.mem_cons.mp hb with rfl | hb'
    · exact assignPage_no_tier2_of_none its instrs used p (contentTypeOf pts p) hnone
    · exact ih _ (findFirstUnused_none_mono _ _
        (assignPage_used_mono its instrs used p (contentTypeOf pts p)) _ hnone) b hb'

/-- Every tier-2 assignment in the rest of the loop picks an instruction
outside the incoming used set. -/
theorem assignLoop_tier2_fresh (its : List (String × List String))
    (instrs : List String) (pts : List (String × String)) :
    ∀ (pages used : List String), ∀ b ∈ assignLoop its instrs pts used pages,
      b.2 = Tier.contentType → b.1.instruction ∉ used := by
  intro pages
  induction pages with
  | nil => intro used b hb; simp [assignLoop] at hb
  | cons p ps ih =>
    intro used b hb ht hmem
    simp only [assignLoop] at hb
    rcases List.mem_cons.mp hb with rfl | hb'
    · exact assignPage_tier2_not_used its instrs used p (contentTypeOf pts p) ht hmem
    · exact ih _ b hb' ht
        (assignPage_used_mono its instrs used p (contentTypeOf pts p) _ hmem)

theorem assignLoop_pairwise_tier2 (its : List (String × List String))
    (instrs : List String) (pts : List (String × String)) :
    ∀ (pages used : List String),
      List.Pairwise (fun a b => b.2 = Tier.contentType → a.1.instruction ≠ b.1.instruction)
        (assignLoop its instrs pts used pages) := by
  intro pages
  induction pages with
  | nil => intro used; simp [assignLoop]
  | cons p ps ih =>
    intro used
    simp only [assignLoop]
    refine List.Pairwise.cons ?_ (ih _)
    intro b hb ht
    rcases assignPage_cases its instrs used p (contentTypeOf pts p) with
      ⟨_, hused, hnone⟩ | hcons
    · rw [hused] at hb
      exact absurd ht (assignLoop_no_tier2_of_exhausted its instrs pts ps used hnone b hb)
    · have hfresh := assignLoop_tier2_fresh its instrs pts ps _ b hb ht
      rw [hcons] at hfresh
      intro heq
      exact hfresh (heq ▸ List.mem_cons_self _ _)

/-! ## Separator-free goals and exhausted segmentations -/

theorem splitByAux_no_sep (acc cs : List Char) (prev : Option Char)
    (h : hasSepFrom prev cs = false) :
    splitByAux matchSepAt 0 prev acc cs = [acc.reverse ++ cs] := by
  induction cs generalizing prev acc with
  | nil => simp [splitByAux]
  | cons c rest ih =>
    rw [hasSepFrom] at h
    simp only [Bool.or_eq_false_iff] at h
    cases hm : matchSepAt prev (c :: rest) with
    | some n => rw [hm] at h; simp at h
    | none =>
      rw [splitByAux, hm]
      rw [ih (c :: acc) (some c) h.2]
      simp

theorem splitRaw_no_sep (goal : String) (h : noSeparatorTokens goal = true) :
    splitRaw goal = [goal] := by
  unfold noSeparatorTokens at h
  rw [Bool.not_eq_true'] at h
  unfold splitRaw
  rw [splitByAux_no_sep [] goal.data none h]
  cases goal
  rfl

theorem assignLoop_empty_instructionTools (pts : List (String × String)) :
    ∀ (pages used : List String),
      assignLoop [] [] pts used pages =
        pages.map (fun p =>
          (⟨p, "Analyze this content", "ai_powered_search"⟩, Tier.absolute)) := by
  intro pages
  induction pages with
  | nil => intro used; rfl
  | cons p ps ih =>
    intro used
    simp [assignLoop, assignPage, findExplicitMatch, findFirstUnused, defaultInstruction, ih]

/-! ## The dispatch loop calls only the four regular collaborators -/

theorem codeActionsLoop_trace_regular (api : ApiService)
    (spaceKey pageTitle detectedCode : String) :
    ∀ (actions : List String) (st : CodeLoopState),
      ∀ c ∈ (codeActionsLoop api spaceKey pageTitle detectedCode actions st).2,
        isSpecialToolCall c = false := by
  intro actions
  induction actions with
  | nil => intro st c hc; simp [codeActionsLoop] at hc
  | cons a rest ih =>
    intro st c hc
    simp only [codeActionsLoop] at hc
    cases hr : api.codeAssistant spaceKey pageTitle (actionPrompt detectedCode a) with
    | error e =>
      rw [hr] at hc
      simp at hc
      subst hc
      rfl
    | ok result =>
      rw [hr] at hc
      simp only [List.mem_cons] at hc
      rcases hc with rfl | hc'
      · rfl
      · exact ih _ c hc'

theorem dispatchAssignment_trace_regular (api : ApiService) (selectedSpace : String)
    (a : PageInstruction) :
    ∀ c ∈ (dispatchAssignment api selectedSpace a).2, isSpecialToolCall c = false := by
  intro c hc
  unfold dispatchAssignment at hc
  by_cases h1 : a.tool = "code_assistant"
  · rw [if_pos h1] at hc
    cases hr : api.codeAssistant selectedSpace a.page "" with
    | error e =>
      rw [hr] at hc
      simp at hc
      subst hc
      rfl
    | ok ir =>
      rw [hr] at hc
      simp only [] at hc
      cases hl : (codeActionsLoop api selectedSpace a.page (jsOr ir.originalCode "")
          (splitRelatedActions a.instruction) ⟨"", "", "", ""⟩).1 with
      | error e =>
        rw [hl] at hc
        simp only [List.mem_cons] at hc
        rcases hc with rfl | hc'
        · rfl
        · exact codeActionsLoop_trace_regular api selectedSpace a.page _ _ _ c hc'
      | ok st =>
        rw [hl] at hc
        simp only [List.mem_cons] at hc
        rcases hc with rfl | hc'
        · rfl
        · exact codeActionsLoop_trace_regular api selectedSpace a.page _ _ _ c hc'
  · rw [if_neg h1] at hc
    by_cases h2 : a.tool = "image_insights"
    · rw [if_pos h2] at hc
      cases hr : api.getImages selectedSpace a.page with
      | error e =>
        rw [hr] at hc
        simp at hc
        subst hc
        rfl
      | ok images =>
        rw [hr] at hc
        simp only [] at hc
        by_cases hlen : images.length > 0
        · rw [if_pos hlen] at hc
          cases hce : collectExcept (images.map
              (fun u => api.imageSummary selectedSpace a.page u)) with
          | error e =>
            rw [hce] at hc
            simp only [List.mem_cons] at hc
            rcases hc with rfl | hc'
            · rfl
            · obtain ⟨u, _, rfl⟩ := List.mem_map.mp hc'
              rfl
          | ok summaries =>
            rw [hce] at hc
            simp only [List.mem_cons] at hc
            rcases hc with rfl | hc'
            · rfl
            · obtain ⟨u, _, rfl⟩ := List.mem_map.mp hc'
              rfl
        · rw [if_neg hlen] at hc
          simp at hc
          subst hc
          rfl
    · rw [if_neg h2] at hc
      by_cases h3 : a.tool = "ai_powered_search"
      · rw [if_pos h3] at hc
        cases hr : api.search selectedSpace [a.page] a.instruction with
        | error e => rw [hr] at hc; simp at hc; subst hc; rfl
        | ok response => rw [hr] at hc; simp at hc; subst hc; rfl
      · rw [if_neg h3] at hc
        by_cases h4 : a.tool = "video_summarizer"
        · rw [if_pos h4] at hc
          cases hr : api.videoSummarizer selectedSpace a.page with
          | error e => rw [hr] at hc; simp at hc; subst hc; rfl
          | ok res => rw [hr] at hc; simp at hc; subst hc; rfl
        · rw [if_neg h4] at hc
          cases hr : api.search selectedSpace [a.page] a.instruction with
          | error e => rw [hr] at hc; simp at hc; subst hc; rfl
          | ok response => rw [hr] at hc; simp at hc; subst hc; rfl

theorem dispatchAll_trace_regular (api : ApiService) (selectedSpace : String) :
    ∀ (assignments : List PageInstruction) (pageResults : List (String × List ResultEntry)),
      ∀ c ∈ (dispatchAll api selectedSpace pageResults assignments).2,
        isSpecialToolCall c = false := by
  intro assignments
  induction assignments with
  | nil => intro pr c hc; simp [dispatchAll] at hc
  | cons a rest ih =>
    intro pr c hc
    simp only [dispatchAll] at hc
    cases hd : (dispatchAssignment api selectedSpace a).1 with
    | error e =>
      rw [hd] at hc
      exact dispatchAssignment_trace_regular api selectedSpace a c hc
    | ok outputs =>
      rw [hd] at hc
      simp only [List.mem_append] at hc
      rcases hc with hc' | hc'
      · exact dispatchAssignment_trace_regular api selectedSpace a c hc'
      · exact ih _ c hc'

theorem runSpecials_not_two_pages (api : ApiService) (selectedSpace goal : String)
    (instructions : List String) (selectedPages : List String)
    (h : selectedPages.length ≠ 2) :
    runSpecials api selectedSpace goal instructions selectedPages =
      (Except.ok (false, false), []) := by
  rcases selectedPages with _ | ⟨p1, _ | ⟨p2, _ | ⟨p3, rest⟩⟩⟩
  · rfl
  · rfl
  · exact absurd rfl h
  · rfl

/-! ## Claim C2 -/

/-- C2 (counterexample): at the claim's own input the second assignment's
instruction is "refactor auth" — the period separator splits off ".py" —
which does not contain "refactor auth.py", and the second page is
resolved by the content-type tier, not by the tier-1 explicit-mention
match the claim asserts. -/
theorem apiDocs_authPy_claim_false :
    ((routeAssignmentsAnnotated "Summarize API Docs and refactor auth.py" ["API Docs", "auth.py"]
        [("API Docs", "text"), ("auth.py", "code")]).map (fun a => (a.1.instruction, a.2)) =
      [("Summarize API Docs", Tier.explicitMention), ("refactor auth", Tier.contentType)]) ∧
    jsIncludes "refactor auth" "refactor auth.py" = false := by decide

/-- C2 (amended): for pages [("API Docs", text), ("auth.py", code)] and
the goal "Summarize API Docs and refactor auth.py", the assignment
procedure produces exactly ("API Docs", "Summarize API Docs",
ai_powered_search) by the explicit-mention tier and ("auth.py",
"refactor auth", code_assistant) by the content-type tier: the period in
"auth.py" is a separator, so the second instruction is "refactor auth"
(the fragment "py" is discarded) and no instruction mentions
"auth.py". -/
theorem apiDocs_authPy_assignments :
    routeAssignmentsAnnotated "Summarize API Docs and refactor auth.py" ["API Docs", "auth.py"]
        [("API Docs", "text"), ("auth.py", "code")] =
      [(⟨"API Docs", "Summarize API Docs", "ai_powered_search"⟩, Tier.explicitMention),
       (⟨"auth.py", "refactor auth", "code_assistant"⟩, Tier.contentType)] := by decide

/-! ## Claim C3 -/

/-- C3 (counterexample): the input "fix" is non-empty after trimming, yet
the segmentation function returns no instruction at all (its only
fragment trims to length 3 and is filtered out). -/
theorem fix_splits_empty : jsTrim "fix" ≠ "" ∧ splitInstructions "fix" = [] := by decide

/-- C3 (amended): segmentation is total (no error conditions), and it
returns at least one instruction exactly when some separator-split
fragment of the input trims to length greater than 3; a non-empty input
whose fragments all trim to length at most 3 yields the empty
sequence. -/
theorem splitInstructions_nonempty_iff (goal : String) :
    splitInstructions goal ≠ [] ↔ ∃ f ∈ splitRaw goal, 3 < (jsTrim f).length := by
  rw [splitInstructions_eq]
  constructor
  · intro h
    obtain ⟨x, hx⟩ := List.exists_mem_of_ne_nil _ h
    have hx' := List.mem_filter.mp hx
    obtain ⟨f, hf, rfl⟩ := List.mem_map.mp hx'.1
    have hp := hx'.2
    simp only [gt_iff_lt, Bool.and_eq_true, decide_eq_true_eq] at hp
    exact ⟨f, hf, hp.2⟩
  · rintro ⟨f, hf, h3⟩ hnil
    have hmem : jsTrim f ∈ ((splitRaw goal).map jsTrim).filter
        (fun instr => decide (instr.length > 0) && decide (instr.length > 3)) := by
      refine List.mem_filter.mpr ⟨List.mem_map.mpr ⟨f, hf, rfl⟩, ?_⟩
      simp only [gt_iff_lt, Bool.and_eq_true, decide_eq_true_eq]
      exact ⟨by omega, h3⟩
    rw [hnil] at hmem
    exact List.not_mem_nil _ hmem

/-! ## Claim C4 -/

/-- C4 (counterexample): with pages ["foo", "foo bar"] and instructions
["analyze foo bar", "summarize something else"], the second page's
tier-1 explicit-mention match selects "analyze foo bar" even though the
first page already consumed it and the instruction "summarize something
else" is still unused — tier 1 does not consult the used-instruction
set. -/
theorem tier1_reuses_consumed_instruction :
    (routeAssignmentsAnnotated "analyze foo bar, summarize something else" ["foo", "foo bar"]
        [("foo", "text"), ("foo bar", "text")] =
      [(⟨"foo", "analyze foo bar", "ai_powered_search"⟩, Tier.explicitMention),
       (⟨"foo bar", "analyze foo bar", "ai_powered_search"⟩, Tier.explicitMention)]) ∧
    splitInstructions "analyze foo bar, summarize something else" =
      ["analyze foo bar", "summarize something else"] := by decide

/-- C4 (amended): only the tier-2 content-type matches are guaranteed
fresh: a tier-2 match never selects an instruction already consumed by
any earlier page (tier-1 explicit-mention matches do not consult the
used-instruction set and may re-select a consumed instruction). -/
theorem tier2_never_reuses_instruction (goal : String) (selectedPages : List String)
    (pageTypes : List (String × String)) :
    List.Pairwise (fun a b => b.2 = Tier.contentType → a.1.instruction ≠ b.1.instruction)
      (routeAssignmentsAnnotated goal selectedPages pageTypes) := by
  unfold routeAssignmentsAnnotated
  exact assignLoop_pairwise_tier2 _ _ _ _ _

/-! ## Claim C8 -/

/-- C8 (counterexample): "hi" contains no separator token, yet
segmentation returns the empty sequence rather than the single
instruction "hi" (the trimmed goal has length at most 3). -/
theorem no_separator_short_goal :
    noSeparatorTokens "hi" = true ∧ splitInstructions "hi" = [] ∧ jsTrim "hi" = "hi" := by
  decide

/-- C8 (amended): for every goal containing none of the separator tokens
whose trimmed length exceeds 3 characters, segmentation returns exactly
one instruction equal to the trimmed goal. -/
theorem no_separator_singleton (goal : String)
    (h1 : noSeparatorTokens goal = true) (h2 : 3 < (jsTrim goal).length) :
    splitInstructions goal = [jsTrim goal] := by
  rw [splitInstructions_eq, splitRaw_no_sep goal h1]
  have hc : (decide ((jsTrim goal).length > 0) && decide ((jsTrim goal).length > 3)) = true := by
    simp only [gt_iff_lt, Bool.and_eq_true, decide_eq_true_eq]
    exact ⟨by omega, h2⟩
  simp [List.filter_cons, hc]

/-- Witness for `no_separator_singleton` at the goal "hello world". -/
theorem no_separator_singleton_witness :
    splitInstructions "hello world" = [jsTrim "hello world"] :=
  no_separator_singleton "hello world" (by decide) (by decide)

/-! ## Claim C10 -/

/-- C10: when every separator-split fragment of the goal trims to length
at most 3 (for example the goal "fix"), segmentation returns the empty
sequence and every selected page receives the synthetic assignment with
instruction "Analyze this content" and tool ai_powered_search (via the
absolute-fallback tier). -/
theorem short_fragments_synthetic_assignment (goal : String) (pages : List String)
    (pageTypes : List (String × String))
    (h : ∀ f ∈ splitRaw goal, (jsTrim f).length ≤ 3) :
    splitInstructions goal = [] ∧
    routeAssignmentsAnnotated goal pages pageTypes =
      pages.map (fun p =>
        (⟨p, "Analyze this content", "ai_powered_search"⟩, Tier.absolute)) := by
  have h1 : splitInstructions goal = [] := by
    rw [splitInstructions_eq, List.filter_eq_nil_iff]
    intro x hx
    obtain ⟨f, hf, rfl⟩ := List.mem_map.mp hx
    have hle := h f hf
    simp only [gt_iff_lt, Bool.and_eq_true, decide_eq_true_eq, not_and]
    intro _
    omega
  refine ⟨h1, ?_⟩
  simp only [routeAssignmentsAnnotated, h1, List.map_nil]
  exact assignLoop_empty_instructionTools pageTypes pages []

/-- Witness for `short_fragments_synthetic_assignment` at the goal
"fix" with two selected pages. -/
theorem short_fragments_witness :
    splitInstructions "fix" = [] ∧
    routeAssignmentsAnnotated "fix" ["P1", "P2"] [] =
      [(⟨"P1", "Analyze this content", "ai_powered_search"⟩, Tier.absolute),
       (⟨"P2", "Analyze this content", "ai_powered_search"⟩, Tier.absolute)] := by
  have h := short_fragments_synthetic_assignment "fix" ["P1", "P2"] [] (by decide)
  exact ⟨h.1, h.2⟩

/-! ## Claim C6 -/

/-- C6: when the goal is empty after trimming, or no space is selected,
or no pages are selected, `handleGoalSubmit` sets the validation error
message and returns synchronously: no collaborator is called and the
output tabs are left untouched. -/
theorem validation_failure_no_calls (api : ApiService) (goal selectedSpace : String)
    (selectedPages : List String) (pageTypes : List (String × String))
    (outputTabs : List String)
    (h : jsTrim goal = "" ∨ selectedSpace = "" ∨ selectedPages = []) :
    handleGoalSubmit api goal selectedSpace selectedPages pageTypes outputTabs =
      { error := "Please enter a goal, select a space, and at least one page.",
        outputTabs := outputTabs, calls := [] } := by
  unfold handleGoalSubmit
  rw [if_pos h]

/-- Witness for `validation_failure_no_calls`: a whitespace-only goal. -/
theorem validation_failure_witness :
    handleGoalSubmit okApi "   " "S" ["P"] [] ["old-tab"] =
      { error := "Please enter a goal, select a space, and at least one page.",
        outputTabs := ["old-tab"], calls := [] } :=
  validation_failure_no_calls okApi "   " "S" ["P"] [] ["old-tab"] (Or.inl (by decide))

/-! ## Claim C7 -/

/-- C7: if the `try` block of a routing run rejects (any collaborator
call failed), the outermost catch surfaces the single generic message
"An error occurred during orchestration." and the output tabs remain in
their reset empty state — no partial per-page results are exposed. -/
theorem collaborator_failure_all_or_nothing (api : ApiService) (goal selectedSpace : String)
    (selectedPages : List String) (pageTypes : List (String × String))
    (prevTabs : List String)
    (hv : ¬(jsTrim goal = "" ∨ selectedSpace = "" ∨ selectedPages = []))
    (hf : isOkB (runTry api goal selectedSpace selectedPages pageTypes).1 = false) :
    (handleGoalSubmit api goal selectedSpace selectedPages pageTypes prevTabs).error =
        "An error occurred during orchestration." ∧
    (handleGoalSubmit api goal selectedSpace selectedPages pageTypes prevTabs).outputTabs
        = [] := by
  unfold handleGoalSubmit
  rw [if_neg hv]
  rcases hr : runTry api goal selectedSpace selectedPages pageTypes with ⟨res, trace⟩
  rw [hr] at hf
  cases res with
  | error e => simp
  | ok tabs => simp [isOkB] at hf

/-- Witness for `collaborator_failure_all_or_nothing`: a run in which
the search collaborator rejects after the page had been routed to it. -/
theorem collaborator_failure_witness :
    (handleGoalSubmit failingApi "summarize this page" "S" ["P"] [("P", "text")] []).error =
        "An error occurred during orchestration." ∧
    (handleGoalSubmit failingApi "summarize this page" "S" ["P"] [("P", "text")] []).outputTabs
        = [] :=
  collaborator_failure_all_or_nothing failingApi "summarize this page" "S" ["P"] [("P", "text")]
    [] (by decide) (by decide)

/-! ## The calls of a non-validation run -/

theorem handleGoalSubmit_calls (api : ApiService) (goal selectedSpace : String)
    (selectedPages : List String) (pageTypes : List (String × String))
    (prevTabs : List String)
    (hv : ¬(jsTrim goal = "" ∨ selectedSpace = "" ∨ selectedPages = [])) :
    (handleGoalSubmit api goal selectedSpace selectedPages pageTypes prevTabs).calls =
      (runTry api goal selectedSpace selectedPages pageTypes).2 := by
  unfold handleGoalSubmit
  rcases hr : runTry api goal selectedSpace selectedPages pageTypes with ⟨res, trace⟩
  rw [if_neg hv]
  cases res <;> rfl

theorem runSpecials_impact_mem (api : ApiService) (selectedSpace goal : String)
    (instructions : List String) (p1 p2 : String)
    (hImp : hasImpactInstruction instructions = true) :
    ApiCall.impactAnalyzer selectedSpace p1 p2 goal ∈
      (runSpecials api selectedSpace goal instructions [p1, p2]).2 := by
  unfold runSpecials
  rw [hImp]
  simp only [if_true]
  cases api.impactAnalyzer selectedSpace p1 p2 goal with
  | error e => simp
  | ok u =>
    by_cases ht : hasTestInstruction instructions = true
    · rw [if_pos ht]
      cases api.testSupport selectedSpace p1 p2 goal with
      | error e => simp
      | ok s => simp
    · rw [if_neg ht]
      simp

theorem runTry_trace_eq (api : ApiService) (goal selectedSpace : String)
    (selectedPages : List String) (pageTypes : List (String × String)) :
    (runTry api goal selectedSpace selectedPages pageTypes).2 =
      (dispatchAll api selectedSpace []
        ((assignLoop ((splitInstructions goal).map (fun i => (i, inferTools i)))
          (splitInstructions goal) pageTypes [] selectedPages).map Prod.fst)).2 ++
      (if isOkB (dispatchAll api selectedSpace []
          ((assignLoop ((splitInstructions goal).map (fun i => (i, inferTools i)))
            (splitInstructions goal) pageTypes [] selectedPages).map Prod.fst)).1 then
        (runSpecials api selectedSpace goal (splitInstructions goal) selectedPages).2
      else []) := by
  simp only [runTry]
  rcases hd : dispatchAll api selectedSpace []
      ((assignLoop ((splitInstructions goal).map (fun i => (i, inferTools i)))
        (splitInstructions goal) pageTypes [] selectedPages).map Prod.fst) with ⟨dres, dtrace⟩
  cases dres with
  | error e => simp [isOkB]
  | ok pr =>
    simp only [isOkB, if_true]
    rcases hs : runSpecials api selectedSpace goal (splitInstructions goal) selectedPages
      with ⟨sres, strace⟩
    cases sres <;> rfl

/-! ## Claim C1 -/

/-- C1 (counterexample): with exactly two pages selected and the goal
"what changed", the run makes no impact-analyzer call — the two-page
special path tests `/impact|compare|difference|diff/i`, and "what
changed" matches none of those (the `change` keyword exists only in the
per-instruction tool inference, not in this trigger). -/
theorem whatChanged_no_impact_call :
    (handleGoalSubmit okApi "what changed" "S" ["A", "B"] [("A", "text"), ("B", "text")] []).calls
      = [ApiCall.search "S" ["A"] "what changed", ApiCall.search "S" ["B"] "what changed"] ∧
    hasImpactInstruction (splitInstructions "what changed") = false := by decide

/-- C1 (amended): if exactly two pages are selected, the submission
passes validation, some segmented instruction matches the impact trigger
`/impact|compare|difference|diff/i` (for example a goal containing
"compare"), and the per-page dispatch loop resolves, then the run
invokes the impact-analyzer collaborator with the two pages as
(old, new) in selection order, in addition to the per-page
assignments. -/
theorem impact_keyword_two_pages_invokes_impact_analyzer
    (api : ApiService) (goal selectedSpace p1 p2 : String)
    (pageTypes : List (String × String)) (prevTabs : List String)
    (hgoal : jsTrim goal ≠ "") (hspace : selectedSpace ≠ "")
    (hImp : hasImpactInstruction (splitInstructions goal) = true)
    (hDisp : isOkB (dispatchAll api selectedSpace []
      ((assignLoop ((splitInstructions goal).map (fun i => (i, inferTools i)))
        (splitInstructions goal) pageTypes [] [p1, p2]).map Prod.fst)).1 = true) :
    ApiCall.impactAnalyzer selectedSpace p1 p2 goal ∈
      (handleGoalSubmit api goal selectedSpace [p1, p2] pageTypes prevTabs).calls := by
  rw [handleGoalSubmit_calls api goal selectedSpace [p1, p2] pageTypes prevTabs
    (by simp [hgoal, hspace])]
  rw [runTry_trace_eq, if_pos hDisp]
  exact List.mem_append_right _
    (runSpecials_impact_mem api selectedSpace goal (splitInstructions goal) p1 p2 hImp)

/-- Witness for `impact_keyword_two_pages_invokes_impact_analyzer`: the
goal "compare these pages" over two selected pages. -/
theorem impact_two_pages_witness :
    ApiCall.impactAnalyzer "S" "A" "B" "compare these pages" ∈
      (handleGoalSubmit okApi "compare these pages" "S" ["A", "B"]
        [("A", "text"), ("B", "text")] []).calls :=
  impact_keyword_two_pages_invokes_impact_analyzer okApi "compare these pages" "S" "A" "B"
    [("A", "text"), ("B", "text")] [] (by decide) (by decide) (by decide) (by decide)

/-! ## Claim C9 -/

theorem runTry_trace_regular_not_two (api : ApiService) (goal selectedSpace : String)
    (pages : List String) (pageTypes : List (String × String))
    (hlen : pages.length ≠ 2) :
    ∀ c ∈ (runTry api goal selectedSpace pages pageTypes).2, isSpecialToolCall c = false := by
  intro c hc
  rw [runTry_trace_eq,
    runSpecials_not_two_pages api selectedSpace goal (splitInstructions goal) pages hlen] at hc
  simp only [ite_self, List.append_nil] at hc
  exact dispatchAll_trace_regular api selectedSpace _ _ c hc

/-- C9: the per-page dispatch loop never invokes the impact-analyzer or
test-support collaborators: (1) every collaborator call started by
dispatching an assignment is a search, code-assistant, image
(getImages/imageSummary) or video-summarizer call; (2) an assignment
whose tool is none of the four dispatchable tools — in particular
impact_analyzer or test_support — goes through the fallback branch,
which makes exactly one search call with the assignment's page and
instruction; and (3) when the number of selected pages is not exactly
two, an entire run makes no impact-analyzer or test-support call at all,
so those collaborators are reachable only through the standalone
two-pages path. -/
theorem dispatch_never_calls_special_tools (api : ApiService) (selectedSpace : String)
    (a : PageInstruction) :
    (∀ c ∈ (dispatchAssignment api selectedSpace a).2, isSpecialToolCall c = false) ∧
    (a.tool ≠ "code_assistant" → a.tool ≠ "image_insights" → a.tool ≠ "ai_powered_search" →
      a.tool ≠ "video_summarizer" →
      (dispatchAssignment api selectedSpace a).2 =
        [ApiCall.search selectedSpace [a.page] a.instruction]) ∧
    (∀ (goal : String) (pages : List String) (pageTypes : List (String × String))
        (prevTabs : List String), pages.length ≠ 2 →
      ∀ c ∈ (handleGoalSubmit api goal selectedSpace pages pageTypes prevTabs).calls,
        isSpecialToolCall c = false) := by
  refine ⟨dispatchAssignment_trace_regular api selectedSpace a, ?_, ?_⟩
  · intro h1 h2 h3 h4
    unfold dispatchAssignment
    rw [if_neg h1, if_neg h2, if_neg h3, if_neg h4]
    cases api.search selectedSpace [a.page] a.instruction <;> rfl
  · intro goal pages pageTypes prevTabs hlen c hc
    by_cases hv : jsTrim goal = "" ∨ selectedSpace = "" ∨ pages = []
    · unfold handleGoalSubmit at hc
      rw [if_pos hv] at hc
      simp at hc
    · rw [handleGoalSubmit_calls api goal selectedSpace pages pageTypes prevTabs hv] at hc
      exact runTry_trace_regular_not_two api goal selectedSpace pages pageTypes hlen c hc

/-- Witness for `dispatch_never_calls_special_tools`: an assignment whose
tool field is impact_analyzer is dispatched as a single search call, and
a one-page run makes no special-tool call. -/
theorem dispatch_no_special_witness :
    (dispatchAssignment okApi "S" ⟨"P", "inspect", "impact_analyzer"⟩).2 =
      [ApiCall.search "S" ["P"] "inspect"] ∧
    ∀ c ∈ (handleGoalSubmit okApi "inspect stuff" "S" ["P"] [] []).calls,
      isSpecialToolCall c = false :=
  ⟨(dispatch_never_calls_special_tools okApi "S" ⟨"P", "inspect", "impact_analyzer"⟩).2.1
      (by decide) (by decide) (by decide) (by decide),
   fun c hc =>
    (dispatch_never_calls_special_tools okApi "S" ⟨"P", "inspect", "impact_analyzer"⟩).2.2
      "inspect stuff" ["P"] [] [] (by decide) c hc⟩

end AgentMode
